import Mathlib

/-!
Verification of the sealbridge repository synchronization engine
(sealrepos: repoops.py, policy.py, scan.py, daemon.py, bridge.py, util/fs.py).

The Python modules are shallowly embedded as executable Lean definitions:
the pure classification and filtering functions become Lean functions, and
the effectful git orchestration becomes a function from an oracle describing
the repository's git state (clean?, SHAs, command outcomes) to the trace of
git commands issued plus an `Except` outcome, mirroring raised exceptions.
-/

deriving instance DecidableEq for Except

namespace Sealrepos

/-- Synchronization state of a branch relative to its upstream
(repoops.py, class SyncState). -/
inductive SyncState where
  | upToDate
  | ahead
  | behind
  | diverged
  deriving DecidableEq, Repr

/-- RepoSync._determine_sync_state (repoops.py): classify from the local SHA,
the remote SHA and their merge-base SHA. -/
def determine_sync_state (localSha remoteSha baseSha : String) : SyncState :=
  if localSha = remoteSha then .upToDate
  else if localSha = baseSha then .behind
  else if remoteSha = baseSha then .ahead
  else .diverged

/-- One reported secret (scan.py, class Finding). -/
structure Finding where
  description : String
  file : String
  line : Nat
  deriving DecidableEq, Repr

/-- The typed errors of util/errors.py that the engine raises. -/
inductive Err where
  | policyViolation
  | gitError
  | secretFound (findings : List Finding)
  | sealbridgeError
  deriving DecidableEq, Repr

/-- External commands the engine can issue, recorded as trace events:
git status --porcelain, git fetch --all --prune, git rebase, git rebase
--abort, git push, git add, git commit, a gitleaks scan, and the
safe_copy_tree directory mirror. `stash` exists so that "the engine never
auto-stashes" is expressible; the code never issues it. -/
inductive Ev where
  | status
  | fetch
  | rebase
  | rebaseAbort
  | push
  | add
  | commit
  | scan
  | stash
  | copyTree
  deriving DecidableEq, Repr

/-- Oracle for one repository's git state during one sync attempt: whether
the working tree is clean, the three SHAs the comparator would read after
the fetch, and whether each mutating command would succeed. -/
structure GitWorld where
  clean : Bool
  fetchOk : Bool
  localSha : String
  remoteSha : String
  baseSha : String
  rebaseOk : Bool
  pushOk : Bool
  deriving DecidableEq, Repr

/-- RepoSync._handle_behind (repoops.py): rebase onto the upstream; a
failing rebase raises GitError (from gitwrap.run_git). No push. -/
def handle_behind (w : GitWorld) : List Ev × Except Err Unit :=
  ([.rebase], if w.rebaseOk then .ok () else .error .gitError)

/-- RepoSync._handle_ahead (repoops.py): push to the counterpart remote.
The secret-scan call is commented out in the source, so no scan event is
issued. -/
def handle_ahead (w : GitWorld) : List Ev × Except Err Unit :=
  ([.push], if w.pushOk then .ok () else .error .gitError)

/-- RepoSync._handle_diverged (repoops.py): rebase onto the upstream, then
push. There is no try/except around the rebase: a failing rebase raises
GitError, no abort is issued and the push is never reached. -/
def handle_diverged (w : GitWorld) : List Ev × Except Err Unit :=
  if w.rebaseOk then
    ([.rebase, .push], if w.pushOk then .ok () else .error .gitError)
  else
    ([.rebase], .error .gitError)

/-- RepoSync.sync (repoops.py), the template method: pre-check (git status,
raising PolicyViolationError on a dirty tree), fetch all remotes, classify,
then dispatch on the classification. Returns the trace of issued commands
and the outcome. -/
def sync (w : GitWorld) : List Ev × Except Err Unit :=
  if !w.clean then ([.status], .error .policyViolation)
  else if !w.fetchOk then ([.status, .fetch], .error .gitError)
  else
    match determine_sync_state w.localSha w.remoteSha w.baseSha with
    | .upToDate => ([.status, .fetch], .ok ())
    | .behind =>
        let r := handle_behind w
        (.status :: .fetch :: r.1, r.2)
    | .ahead =>
        let r := handle_ahead w
        (.status :: .fetch :: r.1, r.2)
    | .diverged =>
        let r := handle_diverged w
        (.status :: .fetch :: r.1, r.2)

end Sealrepos

namespace Sealrepos

/-- GitleaksScanner.scan (scan.py): run gitleaks, parse the JSON report into
findings, and raise SecretFoundError carrying the findings exactly when the
list is non-empty. The external tool invocation and JSON parsing are
abstracted into the list of findings the report contains. -/
def gitleaks_scan (findings : List Finding) : Except Err Unit :=
  if findings.isEmpty then .ok () else .error (.secretFound findings)

/-- NoOpScanner.scan (scan.py): always succeeds. -/
def noop_scan : Except Err Unit := .ok ()

end Sealrepos

namespace Sealrepos

/-- C1: the sync-state classification matches the three-way SHA test, with
up-to-date taking precedence, then behind (local equals base), then ahead
(remote equals base), else diverged; the degenerate triple with all three
SHAs equal is up-to-date. -/
theorem determine_sync_state_correct (l r b : String) :
    (l = r → determine_sync_state l r b = .upToDate) ∧
    (l ≠ r → l = b → determine_sync_state l r b = .behind) ∧
    (l ≠ r → l ≠ b → r = b → determine_sync_state l r b = .ahead) ∧
    (l ≠ r → l ≠ b → r ≠ b → determine_sync_state l r b = .diverged) ∧
    (determine_sync_state l l l = .upToDate) := by
  refine ⟨?_, ?_, ?_, ?_, ?_⟩ <;> intros <;> simp_all [determine_sync_state]

/-- Witness for C1: the classification evaluated on concrete SHA triples
covering all four branches and the degenerate case. -/
theorem determine_sync_state_correct_witness :
    determine_sync_state "s" "s" "b" = .upToDate ∧
    determine_sync_state "a" "r" "a" = .behind ∧
    determine_sync_state "a" "r" "r" = .ahead ∧
    determine_sync_state "a" "r" "b" = .diverged ∧
    determine_sync_state "s" "s" "s" = .upToDate :=
  ⟨(determine_sync_state_correct "s" "s" "b").1 rfl,
   (determine_sync_state_correct "a" "r" "a").2.1 (by decide) rfl,
   (determine_sync_state_correct "a" "r" "r").2.2.1 (by decide) (by decide) rfl,
   (determine_sync_state_correct "a" "r" "b").2.2.2.1 (by decide) (by decide) (by decide),
   (determine_sync_state_correct "s" "s" "s").2.2.2.2⟩

end Sealrepos

namespace Sealrepos

/-- C2 counterexample: on a diverged repository whose rebase fails, the
engine issues no rebase --abort and the raw GitError propagates instead of
a policy/manual-intervention error, contradicting the claim's
failure-branch behavior. -/
theorem sync_diverged_rebase_fail_cex :
    sync ⟨true, true, "a", "r", "b", false, true⟩ =
      ([.status, .fetch, .rebase], .error .gitError) ∧
    (sync ⟨true, true, "a", "r", "b", false, true⟩).1.count .rebaseAbort = 0 ∧
    ¬ ((sync ⟨true, true, "a", "r", "b", false, true⟩).1.count .rebaseAbort = 1 ∧
       (sync ⟨true, true, "a", "r", "b", false, true⟩).2 = .error .policyViolation) := by
  decide

/-- C2 amended: on a diverged repository the engine rebases first; if the
rebase succeeds it issues exactly one rebase followed by exactly one push,
in that order; if the rebase fails, no push is attempted, no abort is
issued, and the git error propagates unconverted. -/
theorem sync_diverged_rebase_then_push (w : GitWorld)
    (hc : w.clean = true) (hf : w.fetchOk = true)
    (hs : determine_sync_state w.localSha w.remoteSha w.baseSha = .diverged) :
    (w.rebaseOk = true →
      sync w = ([.status, .fetch, .rebase, .push],
                if w.pushOk then .ok () else .error .gitError)) ∧
    (w.rebaseOk = false →
      sync w = ([.status, .fetch, .rebase], .error .gitError)) := by
  constructor <;> intro hr <;>
    simp [sync, hc, hf, hs, handle_diverged, hr]

/-- Witness for C2: a concrete diverged world with a clean rebase, pushed
through the amended theorem. -/
theorem sync_diverged_rebase_then_push_witness :
    sync ⟨true, true, "a", "r", "b", true, true⟩ =
      ([.status, .fetch, .rebase, .push], .ok ()) := by
  have h := (sync_diverged_rebase_then_push ⟨true, true, "a", "r", "b", true, true⟩
    rfl rfl (by decide)).1 rfl
  simpa using h

/-- C3 counterexample: on an ahead repository the engine pushes without any
Secret Gate scan: the trace contains one push and zero scan events, so the
scan does not run before the push. -/
theorem sync_ahead_no_scan_cex :
    sync ⟨true, true, "a", "r", "r", true, true⟩ =
      ([.status, .fetch, .push], .ok ()) ∧
    (sync ⟨true, true, "a", "r", "r", true, true⟩).1.count .push = 1 ∧
    ¬ (1 ≤ (sync ⟨true, true, "a", "r", "r", true, true⟩).1.count .scan) := by
  decide

/-- C3 amended: on an ahead repository the engine pushes unconditionally
without invoking the Secret Gate (the scan call is absent from the ahead
path, so the trace has no scan event); the gitleaks scanner component
itself, when invoked, raises a secrets-found error carrying the findings
exactly when findings are present. -/
theorem sync_ahead_pushes_without_scan (w : GitWorld)
    (hc : w.clean = true) (hf : w.fetchOk = true)
    (hs : determine_sync_state w.localSha w.remoteSha w.baseSha = .ahead) :
    sync w = ([.status, .fetch, .push],
              if w.pushOk then .ok () else .error .gitError) ∧
    (sync w).1.count .scan = 0 ∧
    (∀ fs : List Finding, gitleaks_scan fs = .ok () ↔ fs = []) := by
  refine ⟨?_, ?_, ?_⟩
  · simp [sync, hc, hf, hs, handle_ahead]
  · simp [sync, hc, hf, hs, handle_ahead, List.count]
  · intro fs
    cases fs <;> simp [gitleaks_scan]

/-- Witness for C3: the amended theorem applied to a concrete ahead world,
and the scanner evaluated on an empty and a singleton finding list. -/
theorem sync_ahead_pushes_without_scan_witness :
    sync ⟨true, true, "a", "r", "r", true, false⟩ =
      ([.status, .fetch, .push], .error .gitError) ∧
    gitleaks_scan [] = .ok () ∧
    gitleaks_scan [⟨"aws key", "config.py", 7⟩] =
      .error (.secretFound [⟨"aws key", "config.py", 7⟩]) := by
  have h := sync_ahead_pushes_without_scan ⟨true, true, "a", "r", "r", true, false⟩
    rfl rfl (by decide)
  exact ⟨by simpa using h.1, by decide, by decide⟩

/-- C5: on a dirty working tree the sync fails with a policy violation
before any fetch is issued (zero fetch events), and the engine never
stashes or commits user changes (zero stash and commit events). -/
theorem sync_dirty_aborts_before_fetch (w : GitWorld) (hd : w.clean = false) :
    sync w = ([.status], .error .policyViolation) ∧
    (sync w).1.count .fetch = 0 ∧
    (sync w).1.count .stash = 0 ∧
    (sync w).1.count .commit = 0 := by
  refine ⟨?_, ?_, ?_, ?_⟩ <;> simp [sync, hd, List.count]

/-- Witness for C5: a concrete dirty world, pushed through the theorem. -/
theorem sync_dirty_aborts_before_fetch_witness :
    sync ⟨false, true, "a", "r", "b", true, true⟩ =
      ([.status], .error .policyViolation) :=
  (sync_dirty_aborts_before_fetch ⟨false, true, "a", "r", "b", true, true⟩ rfl).1

end Sealrepos

namespace Sealrepos

/-- Modelled from the pathspec dependency's gitwildmatch pattern language,
fuel-bounded for structural recursion: a literal character matches itself,
a single star matches any run of non-separator characters, and a double
star matches any run including separators. The fuel argument strictly
exceeds the total length of pattern and path, so it never runs out on the
initial call made by globChars. -/
def globMatchF : Nat → List Char → List Char → Bool
  | 0, _, _ => false
  | fuel+1, pat, path =>
    match pat, path with
    | [], [] => true
    | [], _ :: _ => false
    | '*' :: '*' :: ps, s =>
        globMatchF fuel ps s ||
          (match s with
           | [] => false
           | _ :: t => globMatchF fuel ('*' :: '*' :: ps) t)
    | '*' :: ps, s =>
        globMatchF fuel ps s ||
          (match s with
           | [] => false
           | c :: t => (c != '/') && globMatchF fuel ('*' :: ps) t)
    | _ :: _, [] => false
    | c :: ps, d :: t => (c == d) && globMatchF fuel ps t

/-- Anchored glob match of a pattern against a character list. -/
def globChars (p s : List Char) : Bool :=
  globMatchF (p.length + s.length + 1) p s

/-- Split a character list at separator characters, accumulating the
current segment in reverse. -/
def splitSlashAux : List Char → List Char → List (List Char)
  | [], cur => [cur.reverse]
  | '/' :: rest, _cur => _cur.reverse :: splitSlashAux rest []
  | c :: rest, cur => splitSlashAux rest (c :: cur)

/-- Slash-separated segments of a relative path. -/
def pathSegments (path : String) : List (List Char) :=
  splitSlashAux path.data []

/-- Final path segment of a slash-separated relative path. -/
def lastSegment (path : String) : String :=
  String.mk ((pathSegments path).getLastD [])

/-- Modelled from the pathspec dependency: a gitwildmatch pattern with a
slash is anchored at the tree root; a pattern without a slash matches the
final path segment at any depth. -/
def gitwildmatch (pat path : String) : Bool :=
  if pat.data.contains '/' then globChars pat.data path.data
  else globChars pat.data (lastSegment path).data

/-- Modelled from the pathspec dependency: one compiled gitwildmatch line;
a leading exclamation mark marks a negation line (isInclude = false). -/
structure GWPattern where
  pat : String
  isInclude : Bool
  deriving DecidableEq, Repr

/-- Modelled from the pathspec dependency: parse one gitwildmatch line,
stripping a leading exclamation mark into the negation flag. -/
def parseLine (s : String) : GWPattern :=
  match s.data with
  | '!' :: rest => ⟨String.mk rest, false⟩
  | _ => ⟨s, true⟩

/-- Modelled from the pathspec dependency (PathSpec.match_file): patterns
are tried in order and the last matching line decides; a path matching no
line is not matched. -/
def matchFile (patterns : List GWPattern) (f : String) : Bool :=
  patterns.foldl (fun acc p => if gitwildmatch p.pat f then p.isInclude else acc) false

/-- build_pathspec (policy.py): prepend the exclude patterns, each negated
with a leading exclamation mark, then append the include patterns, and
compile the combined line list. -/
def build_pathspec (inc exc : List String) : List GWPattern :=
  ((exc.map (fun p => "!" ++ p)) ++ inc).map parseLine

end Sealrepos

namespace Sealrepos

/-- Helper: a run of negated (exclamation-prefixed) gitwildmatch lines
never matches any path, because each such line only ever writes false into
the fold accumulator. -/
theorem matchFile_neg_lines (f : String) (exc : List String) :
    matchFile ((exc.map (fun p => "!" ++ p)).map parseLine) f = false := by
  induction exc with
  | nil => rfl
  | cons p t ih =>
      have hd : parseLine ("!" ++ p) = ⟨String.mk p.data, false⟩ := by
        simp [parseLine, String.data_append]
      simp only [List.map_cons, matchFile, List.foldl_cons] at ih ⊢
      rw [hd]
      simpa using ih

/-- C4: the claim fails on the code. Because build_pathspec puts the
negated exclude lines before the include lines and gitwildmatch matching
is last-match-wins, an include line always overrides an exclude line for
the same path: the matcher compiled from include ["*.py"] and exclude
["build/**"] matches "build/a.py" even though that path matches the
exclude pattern. In general the exclude list has no effect at all on the
compiled matcher. -/
theorem build_pathspec_exclude_no_effect :
    (matchFile (build_pathspec ["*.py"] ["build/**"]) "build/a.py" = true ∧
     gitwildmatch "build/**" "build/a.py" = true) ∧
    (∀ (inc exc : List String) (f : String),
       matchFile (build_pathspec inc exc) f = matchFile (build_pathspec inc []) f) := by
  refine ⟨⟨by decide, by decide⟩, ?_⟩
  intro inc exc f
  have h := matchFile_neg_lines f exc
  simp only [matchFile] at h ⊢
  simp only [build_pathspec, List.map_append, List.foldl_append, List.map_nil,
    List.nil_append, h]

end Sealrepos

namespace Sealrepos

/-- Path traversal guard in safe_copy_tree (fs.py): a relative path whose
slash-separated segments contain a dot-dot segment is skipped. -/
def hasDotDot (relPath : String) : Bool :=
  (pathSegments relPath).contains ['.', '.']

/-- pathspec PathSpec.from_lines followed by match_files: the subset of the
given files that the compiled lines match, as used by safe_copy_tree. -/
def pathspec_match_files (lines : List String) (files : List String) : List String :=
  files.filter (fun f => matchFile (lines.map parseLine) f)

/-- Steps 2 to 4 of safe_copy_tree (fs.py): start from every source file;
when include patterns are given, keep only the files the include spec
matches; then, when exclude patterns are given, remove the files the
exclude spec matches. -/
def files_to_process (srcFiles : List String) (inc exc : List String) : List String :=
  let files1 := if inc.isEmpty then srcFiles else pathspec_match_files inc srcFiles
  if exc.isEmpty then files1
  else files1.filter (fun f => !(matchFile (exc.map parseLine) f))

/-- One iteration of the copy loop in safe_copy_tree (fs.py): skip a path
containing a dot-dot segment, otherwise copy the file into the
destination. -/
def copy_step (dst : List String) (f : String) : List String :=
  if hasDotDot f then dst else dst ++ [f]

/-- safe_copy_tree (fs.py): compute the filtered file set, remove the whole
existing destination tree (shutil.rmtree), then copy the selected files one
by one. Trees are modelled by their file lists; the result is the
destination tree after the call. The second argument is the destination
tree before the call; the rmtree step discards it. -/
def safe_copy_tree (srcFiles _dstFiles : List String) (inc exc : List String) : List String :=
  (files_to_process srcFiles inc exc).foldl copy_step []

/-- Helper: the copy loop appends exactly the files without a dot-dot
segment, in order. -/
theorem foldl_copy_step (l acc : List String) :
    l.foldl copy_step acc = acc ++ l.filter (fun f => !hasDotDot f) := by
  induction l generalizing acc with
  | nil => simp
  | cons x t ih =>
      simp only [List.foldl_cons, copy_step]
      by_cases hx : hasDotDot x
      · simp [hx, ih]
      · simp [hx, ih]

/-- C6: with an empty include list the filtered copy selects every file not
matched by the exclude spec (open policy); with a non-empty include list it
selects exactly the files matched by the include spec minus those matched
by the exclude spec (closed policy); in both cases minus the dot-dot
traversal guard, which no path produced by a directory walk triggers. On
the concrete tree a.py, b.txt, docs/c.md, build/artifact.bin with include
patterns *.py and *.md and exclude pattern build/** exactly a.py and
docs/c.md are selected. -/
theorem safe_copy_tree_path_policy :
    (∀ (src dst exc : List String),
       safe_copy_tree src dst [] exc =
         src.filter (fun f => !(matchFile (exc.map parseLine) f) && !hasDotDot f)) ∧
    (∀ (src dst : List String) (p : String) (inc exc : List String),
       safe_copy_tree src dst (p :: inc) exc =
         src.filter (fun f => matchFile ((p :: inc).map parseLine) f &&
           (!(matchFile (exc.map parseLine) f) && !hasDotDot f))) ∧
    safe_copy_tree ["a.py", "b.txt", "docs/c.md", "build/artifact.bin"] ["old.bin"]
        ["*.py", "*.md"] ["build/**"] = ["a.py", "docs/c.md"] := by
  refine ⟨?_, ?_, by decide⟩
  · intro src dst exc
    cases exc with
    | nil => simp [safe_copy_tree, files_to_process, foldl_copy_step, matchFile]
    | cons e es =>
        simp [safe_copy_tree, files_to_process, foldl_copy_step, List.filter_filter,
          Bool.and_comm]
  · intro src dst p inc exc
    cases exc with
    | nil =>
        simp [safe_copy_tree, files_to_process, pathspec_match_files,
          foldl_copy_step, List.filter_filter, matchFile, Bool.and_comm]
    | cons e es =>
        simp [safe_copy_tree, files_to_process, pathspec_match_files,
          foldl_copy_step, List.filter_filter, Bool.and_assoc, Bool.and_comm,
          Bool.and_left_comm]

/-- C10: safe_copy_tree removes the destination tree wholesale before
copying: afterwards the destination holds exactly the selected source files
(the filtered set, minus the dot-dot guard), independently of what the
destination held before; any previously present destination file that is
not among the selected source files is gone. -/
theorem safe_copy_tree_replaces_destination (src dst inc exc : List String) :
    safe_copy_tree src dst inc exc =
      (files_to_process src inc exc).filter (fun f => !hasDotDot f) ∧
    (∀ f ∈ dst, f ∉ files_to_process src inc exc →
      f ∉ safe_copy_tree src dst inc exc) := by
  constructor
  · simp [safe_copy_tree, foldl_copy_step]
  · intro f _hf hnot
    simp only [safe_copy_tree, foldl_copy_step, List.nil_append]
    intro hmem
    exact hnot (List.mem_of_mem_filter hmem)

/-- Witness for C10: a destination holding a git directory entry and a
stale file is fully replaced by the selected source files; the old
destination-only files, including the git directory entry, are gone. -/
theorem safe_copy_tree_replaces_destination_witness :
    safe_copy_tree ["a.py"] [".git/config", "old.txt"] [] [] = ["a.py"] ∧
    ".git/config" ∉ safe_copy_tree ["a.py"] [".git/config", "old.txt"] [] [] :=
  ⟨by decide,
   (safe_copy_tree_replaces_destination ["a.py"] [".git/config", "old.txt"] [] []).2
     ".git/config" (by decide) (by decide)⟩

end Sealrepos

namespace Sealrepos

/-- Oracle for one bridge cycle over the two clones: whether each clone's
status reports it ahead of its remote tracking state, each clone's file
tree, and whether each working tree is dirty after the tree copy. -/
structure BridgeWorld where
  personalAhead : Bool
  relayAhead : Bool
  personalFiles : List String
  relayFiles : List String
  relayDirtyAfterCopy : Bool
  personalDirtyAfterCopy : Bool
  deriving DecidableEq, Repr

/-- RepoBridge._mirror_personal_to_relay (bridge.py): fetch the personal
clone; if its status reports it ahead, call safe_copy_tree from the
personal tree onto the relay tree with empty include and exclude lists,
then add, commit and push the relay clone when its tree changed. Returns
the trace and the relay tree after the step. -/
def mirror_personal_to_relay (w : BridgeWorld) : List Ev × List String :=
  if w.personalAhead then
    let newRelay := safe_copy_tree w.personalFiles w.relayFiles [] []
    if w.relayDirtyAfterCopy then
      ([.fetch, .copyTree, .add, .commit, .push], newRelay)
    else
      ([.fetch, .copyTree], newRelay)
  else
    ([.fetch], w.relayFiles)

/-- RepoBridge._mirror_relay_to_personal (bridge.py): the symmetric step,
copying the relay tree onto the personal tree, again with empty include
and exclude lists. -/
def mirror_relay_to_personal (w : BridgeWorld) : List Ev × List String :=
  if w.relayAhead then
    let newPersonal := safe_copy_tree w.relayFiles w.personalFiles [] []
    if w.personalDirtyAfterCopy then
      ([.fetch, .copyTree, .add, .commit, .push], newPersonal)
    else
      ([.fetch, .copyTree], newPersonal)
  else
    ([.fetch], w.personalFiles)

/-- C7: the claim fails on the code. The bridge mirror step passes empty
include and exclude lists to safe_copy_tree instead of the repository's
path policy, so a personal clone holding build/artifact.bin mirrors that
file onto the relay tree even though it matches the repository's exclude
pattern build/**: the whole personal tree is copied unfiltered. -/
theorem mirror_personal_to_relay_copies_excluded :
    (mirror_personal_to_relay
        ⟨true, false, ["src/main.py", "build/artifact.bin"], ["relay.txt"],
         true, false⟩).2 =
      ["src/main.py", "build/artifact.bin"] ∧
    "build/artifact.bin" ∈ (mirror_personal_to_relay
        ⟨true, false, ["src/main.py", "build/artifact.bin"], ["relay.txt"],
         true, false⟩).2 ∧
    gitwildmatch "build/**" "build/artifact.bin" = true := by
  decide

/-- Repository descriptor fields the daemon consults (config.py, class
Repo): the name, the sync mode, and the git state its sync would observe. -/
structure RepoCfg where
  name : String
  mode : String
  world : GitWorld
  deriving DecidableEq, Repr

/-- run_sync_cycle (daemon.py): for each configured repository, skip it
when its mode is nosync; otherwise run RepoSync.sync, catching any raised
error at the loop body boundary so the remaining repositories still run.
Returns one entry per attempted repository with its trace and outcome. -/
def run_sync_cycle (repos : List RepoCfg) : List (String × (List Ev × Except Err Unit)) :=
  repos.filterMap (fun r =>
    if r.mode = "nosync" then none
    else some (r.name, sync r.world))

/-- C8: a sync cycle is exactly the per-repository sync mapped over the
repositories whose mode is not nosync: nosync repositories are filtered
out before any git state is read, classified or acted upon, contributing
no entry and no git command to the cycle. -/
theorem run_sync_cycle_skips_nosync (repos : List RepoCfg) :
    run_sync_cycle repos =
      (repos.filter (fun r => !(r.mode == "nosync"))).map
        (fun r => (r.name, sync r.world)) := by
  induction repos with
  | nil => rfl
  | cons r t ih =>
      by_cases h : r.mode = "nosync" <;>
        simp [run_sync_cycle, h, List.filter_cons] at ih ⊢ <;> simp [ih]

/-- C9: every non-nosync repository's sync result appears in the cycle's
output, whatever the outcomes of the other repositories: an error raised
while syncing one repository is caught at the cycle boundary and does not
prevent the sync of any sibling in the same cycle. -/
theorem run_sync_cycle_isolates_failures (repos : List RepoCfg) (r : RepoCfg)
    (hm : r ∈ repos) (hn : r.mode ≠ "nosync") :
    (r.name, sync r.world) ∈ run_sync_cycle repos := by
  simp only [run_sync_cycle, List.mem_filterMap]
  exact ⟨r, hm, by simp [hn]⟩

/-- Witness for C9: a cycle over two repositories where the first fails
with a policy violation still contains the second repository's sync
result. -/
theorem run_sync_cycle_isolates_failures_witness :
    (sync ⟨false, true, "a", "r", "b", true, true⟩).2 = .error .policyViolation ∧
    ("beta", sync ⟨true, true, "s", "s", "s", true, true⟩) ∈
      run_sync_cycle [⟨"alfa", "plain", ⟨false, true, "a", "r", "b", true, true⟩⟩,
                      ⟨"beta", "plain", ⟨true, true, "s", "s", "s", true, true⟩⟩] :=
  ⟨by decide,
   run_sync_cycle_isolates_failures _ ⟨"beta", "plain", ⟨true, true, "s", "s", "s", true, true⟩⟩
     (by decide) (by decide)⟩

end Sealrepos
